import Mathlib

/-!
Verification of the CasperVault vault accounting and withdrawal engine
(`contracts/src/core/vault_manager.rs` with its guard modules
`utils/pausable.rs`, `utils/reentrancy_guard.rs`, `utils/access_control.rs`).

The contract state is embedded as an explicit Lean structure; every
entry point becomes a function from the state (plus the call environment:
caller, attached amount, block time) to `Except ExecError (result × state)`.
An `Except.error` models `env().revert(..)` — on the host ledger a revert
rolls back every mutation of the call, so an error result stands for
"the call aborts and the pre-state is kept unchanged".  The `unwrapNone`
error models a Rust panic from `checked_*(..).unwrap()` (arithmetic
overflow/underflow or division by zero), which likewise aborts the call.

`U512` arithmetic is embedded as `Nat` guarded by the 2^512 bound where
the source uses checked operations.
-/

set_option maxRecDepth 100000

/-- Error codes, from `types/errors.rs` (`VaultError` and `AccessError`);
`unwrapNone` stands for a Rust `unwrap()` panic on a failed checked op. -/
inductive ExecError where
  | insufficientBalance
  | zeroAmount
  | paused
  | notPaused
  | unauthorized
  | reentrancyGuard
  | rateLimitExceeded
  | insufficientLiquidity
  | timelockActive
  | invalidRequest
  | missingRole
  | unwrapNone
  deriving Repr, DecidableEq

/-- 2^512, the overflow bound of the `U512` type used by the contract. -/
def U512MOD : Nat := 2 ^ 512

/-- `a.checked_add(b).unwrap()` on `U512` (also plain `+`, which aborts on
overflow the same way). -/
def cadd (a b : Nat) : Except ExecError Nat :=
  if a + b < U512MOD then .ok (a + b) else .error .unwrapNone

/-- `a.checked_sub(b).unwrap()` on `U512`. -/
def csub (a b : Nat) : Except ExecError Nat :=
  if b ≤ a then .ok (a - b) else .error .unwrapNone

/-- `a.checked_mul(b).unwrap()` on `U512`. -/
def cmul (a b : Nat) : Except ExecError Nat :=
  if a * b < U512MOD then .ok (a * b) else .error .unwrapNone

/-- `a.checked_div(b).unwrap()` on `U512`. -/
def cdiv (a b : Nat) : Except ExecError Nat :=
  if b = 0 then .error .unwrapNone else .ok (a / b)

deriving instance DecidableEq for Except

@[simp]
theorem throw_eq_error {ε α : Type} (e : ε) :
    (throw e : Except ε α) = .error e := rfl

@[simp]
theorem pure_eq_ok {ε α : Type} (a : α) :
    (pure a : Except ε α) = .ok a := rfl

@[simp]
theorem error_bind {ε α β : Type} (e : ε) (f : α → Except ε β) :
    (Except.error e >>= f) = .error e := rfl

@[simp]
theorem ok_bind {ε α β : Type} (a : α) (f : α → Except ε β) :
    (Except.ok a >>= f) = f a := rfl

/-- Odra `Mapping<K, V>` embedded as an association list (addresses and
request ids are embedded as `Nat`). -/
abbrev KMap (V : Type) : Type := List (Nat × V)

namespace KMap

/-- `Mapping::get`, returning `None` for an absent key. -/
def lookup {V : Type} : KMap V → Nat → Option V
  | [], _ => none
  | (k', v) :: rest, k => if k' = k then some v else lookup rest k

/-- `Mapping::set`. -/
def set {V : Type} : KMap V → Nat → V → KMap V
  | [], k, v => [(k, v)]
  | (k', v') :: rest, k, v =>
      if k' = k then (k, v) :: rest else (k', v') :: set rest k v

/-- `Mapping::remove`. -/
def remove {V : Type} : KMap V → Nat → KMap V
  | [], _ => []
  | (k', v') :: rest, k =>
      if k' = k then remove rest k else (k', v') :: remove rest k

theorem lookup_set_self {V : Type} (m : KMap V) (k : Nat) (v : V) :
    lookup (set m k v) k = some v := by
  induction m with
  | nil => simp [set, lookup]
  | cons hd tl ih =>
      obtain ⟨k', v'⟩ := hd
      by_cases h : k' = k
      · simp [set, h, lookup]
      · simp [set, h, lookup, ih]

end KMap

/-- `UserDeposit` (vault_manager.rs): the fields actually read and written
by the deposit/fee paths (`cost_basis`, `total_deposited`,
`last_deposit_time`; the record literal in `update_user_deposit_tracking`
uses exactly these three). -/
structure UserDeposit where
  costBasis : Nat
  totalDeposited : Nat
  lastDepositTime : Nat
  deriving Repr, DecidableEq

/-- `WithdrawalRequest` (vault_manager.rs), as constructed by
`request_withdrawal`. -/
structure WithdrawalRequest where
  user : Nat
  shares : Nat
  assetsValue : Nat
  requestTime : Nat
  unlockTime : Nat
  completed : Bool
  deriving Repr, DecidableEq

/-- The persistent state of `VaultManager`, with its three guard
sub-modules flattened in: `paused` (Pausable), `locked` (ReentrancyGuard,
true = ENTERED), and `roles` (AccessControl: the set of
(role, account) pairs that hold; Admin = 0, Operator = 1, Guardian = 2,
Keeper = 3). `totalAssetsVar` is the `total_assets: Var<U512>` field,
distinct from the `total_assets()` method. -/
structure VaultState where
  paused : Bool
  locked : Bool
  roles : List (Nat × Nat)
  totalAssetsVar : Nat
  totalShares : Nat
  userShares : KMap Nat
  userDeposits : KMap UserDeposit
  withdrawalRequests : KMap WithdrawalRequest
  nextRequestId : Nat
  withdrawalTimelock : Nat
  instantWithdrawalPool : Nat
  instantPoolTargetBps : Nat
  performanceFeeBps : Nat
  managementFeeBps : Nat
  instantWithdrawalFeeBps : Nat
  feesCollected : Nat
  lastFeeCollection : Nat
  treasury : Nat
  maxDeposit : Nat
  maxDepositPerDay : Nat
  dailyDeposits : KMap Nat
  minShares : Nat
  deriving Repr, DecidableEq

namespace VaultManager

/-- `AccessControl::has_role`. -/
def hasRole (s : VaultState) (role account : Nat) : Bool :=
  s.roles.contains (role, account)

/-- The Keeper role id (`Role::Keeper = 3` in access_control.rs). -/
def keeperRole : Nat := 3

/-- `VaultManager::total_assets()` (the method, lines 604-611): it starts
from the instant withdrawal pool and — the collaborator queries being
absent from the body — returns just that. -/
def total_assets (s : VaultState) : Nat :=
  s.instantWithdrawalPool

/-- Modelled from the spec: the value reported by the external
strategy/staking collaborators, which the spec says `totalAssets()` adds
to the instant pool.  The collaborator calls are missing from
`total_assets()` in src/, so the externally deployed value is modelled as
the running `total_assets` counter (everything ever deposited) minus the
part held in the instant pool. -/
def deployedValue (s : VaultState) : Nat :=
  s.totalAssetsVar - s.instantWithdrawalPool

/-- Modelled from the spec: "`totalAssets()`: sum of instant-pool balance
plus the value reported by external strategy/staking collaborators". -/
def total_assets_spec (s : VaultState) : Nat :=
  s.instantWithdrawalPool + deployedValue s

/-- `VaultManager::convert_to_shares` (lines 552-572). -/
def convert_to_shares (s : VaultState) (assets : Nat) : Except ExecError Nat :=
  let totalShares := s.totalShares
  if totalShares = 0 then
    -- First deposit: 1:1 ratio
    .ok assets
  else
    let totalAssets := total_assets s
    if totalAssets = 0 then
      -- Edge case: vault has shares but no assets
      .ok assets
    else do
      let p ← cmul assets totalShares
      cdiv p totalAssets

/-- `VaultManager::convert_to_assets` (lines 580-595). -/
def convert_to_assets (s : VaultState) (shares : Nat) : Except ExecError Nat :=
  let totalShares := s.totalShares
  if totalShares = 0 then
    .ok 0
  else do
    let p ← cmul shares (total_assets s)
    cdiv p totalShares

/-- `VaultManager::calculate_performance_fee` (lines 647-687).  Returns
the fee and the updated state (it adds the fee to `fees_collected`). -/
def calculate_performance_fee (s : VaultState) (user amount : Nat) :
    Except ExecError (Nat × VaultState) :=
  match KMap.lookup s.userDeposits user with
  | some data =>
      if amount ≤ data.costBasis then
        -- No profit, no fee
        .ok (0, s)
      else do
        let profit ← csub amount data.costBasis
        let p ← cmul profit s.performanceFeeBps
        let fee ← cdiv p 10000
        let fc ← cadd s.feesCollected fee
        .ok (fee, { s with feesCollected := fc })
  | none => do
      -- No deposit data, treat entire withdrawal as profit (edge case)
      let p ← cmul amount s.performanceFeeBps
      let fee ← cdiv p 10000
      let fc ← cadd s.feesCollected fee
      .ok (fee, { s with feesCollected := fc })

/-- `VaultManager::collect_management_fees` (lines 693-737).  The caller
must hold the Keeper role (`access_control.only_keeper()`), at least one
hour must have elapsed, and the fee shares are minted to the treasury. -/
def collect_management_fees (s : VaultState) (caller now : Nat) :
    Except ExecError VaultState :=
  if ¬ hasRole s keeperRole caller then .error .missingRole
  else if now < s.lastFeeCollection + 3600 then .error .rateLimitExceeded
  else
    let timeElapsed := now - s.lastFeeCollection
    let totalShares := s.totalShares
    do
      let p1 ← cmul totalShares s.managementFeeBps
      let p2 ← cmul p1 timeElapsed
      let q1 ← cdiv p2 31536000
      let feeShares ← cdiv q1 10000
      if feeShares = 0 then
        .ok s
      else do
        let ts ← cadd totalShares feeShares
        let treasuryShares := (KMap.lookup s.userShares s.treasury).getD 0
        let tsh ← cadd treasuryShares feeShares
        .ok { s with
                totalShares := ts,
                lastFeeCollection := now,
                userShares := KMap.set s.userShares s.treasury tsh }

/-- `VaultManager::calculate_strategy_deployment` (lines 740-768). -/
def calculate_strategy_deployment (s : VaultState) (depositAmount : Nat) :
    Except ExecError Nat := do
  let targetBps := s.instantPoolTargetBps
  let totalAssets := total_assets s
  let p ← cmul totalAssets targetBps
  let targetPoolSize ← cdiv p 10000
  let currentPool := s.instantWithdrawalPool
  if targetPoolSize ≤ currentPool then
    -- Pool is at target, deploy entire amount
    .ok depositAmount
  else do
    let poolDeficit ← csub targetPoolSize currentPool
    if depositAmount ≤ poolDeficit then
      .ok 0
    else
      csub depositAmount poolDeficit

/-- `VaultManager::check_daily_deposit_limit` (lines 771-802).  Returns
the boolean the source returns together with the updated state; note the
24-hour window test reads `user_deposits[user].last_deposit_time`. -/
def check_daily_deposit_limit (s : VaultState) (user amount now : Nat) :
    Except ExecError (Bool × VaultState) :=
  match KMap.lookup s.userDeposits user with
  | some data =>
      if data.lastDepositTime + 86400 < now then
        -- Reset daily limit
        .ok (true, { s with dailyDeposits := KMap.set s.dailyDeposits user amount })
      else do
        let currentDaily := (KMap.lookup s.dailyDeposits user).getD 0
        let newDaily ← cadd currentDaily amount
        if s.maxDepositPerDay < newDaily then
          .ok (false, s)
        else
          .ok (true, { s with dailyDeposits := KMap.set s.dailyDeposits user newDaily })
  | none =>
      -- First deposit
      .ok (true, { s with dailyDeposits := KMap.set s.dailyDeposits user amount })

/-- `VaultManager::update_user_deposit_tracking` (lines 805-819). -/
def update_user_deposit_tracking (s : VaultState) (user amount now : Nat) :
    Except ExecError VaultState := do
  let data := (KMap.lookup s.userDeposits user).getD
    { costBasis := 0, totalDeposited := 0, lastDepositTime := 0 }
  let cb ← cadd data.costBasis amount
  let td ← cadd data.totalDeposited amount
  let data' : UserDeposit :=
    { costBasis := cb, totalDeposited := td, lastDepositTime := now }
  .ok { s with userDeposits := KMap.set s.userDeposits user data' }

/-- `VaultManager::deposit` (lines 200-272).  `amount` is the attached
value, `now` the block time.  Note: the boolean returned by
`check_daily_deposit_limit` is discarded (line 217 calls it as a bare
statement), and `collect_management_fees` is invoked on the caller
(line 220), so its keeper check and one-hour limit apply to the
depositor. -/
def deposit (s₀ : VaultState) (caller amount now : Nat) :
    Except ExecError (Nat × VaultState) := do
  if s₀.paused then throw .paused
  if s₀.locked then throw .reentrancyGuard
  let s := { s₀ with locked := true }
  if amount = 0 then throw .zeroAmount
  if s.maxDeposit < amount then throw .rateLimitExceeded
  let (_, s) ← check_daily_deposit_limit s caller amount now
  let s ← collect_management_fees s caller now
  -- Step 1: Stake CSPR to get lstCSPR (assumed 1:1 in the source)
  let lstCsprReceived := amount
  -- Step 2: Calculate shares to mint (ERC-4626)
  let sharesToMint ← convert_to_shares s lstCsprReceived
  if sharesToMint < s.minShares then throw .insufficientBalance
  -- Step 3: Update total assets and shares
  let ta ← cadd s.totalAssetsVar lstCsprReceived
  let ts ← cadd s.totalShares sharesToMint
  let s := { s with totalAssetsVar := ta, totalShares := ts }
  -- Step 4: Update user shares
  let userCurrentShares := (KMap.lookup s.userShares caller).getD 0
  let ush ← cadd userCurrentShares sharesToMint
  let s := { s with userShares := KMap.set s.userShares caller ush }
  -- Step 5: Update user deposit tracking
  let s ← update_user_deposit_tracking s caller amount now
  -- Step 7: Deploy to strategies (the router call is absent from the body)
  let amountToDeploy ← calculate_strategy_deployment s lstCsprReceived
  -- Step 8: Replenish instant withdrawal pool
  let poolAmount := lstCsprReceived - amountToDeploy
  let s ←
    if 0 < poolAmount then do
      let p ← cadd s.instantWithdrawalPool poolAmount
      pure { s with instantWithdrawalPool := p }
    else
      pure s
  .ok (sharesToMint, { s with locked := false })

/-- `VaultManager::withdraw` (lines 286-351). -/
def withdraw (s₀ : VaultState) (caller shares now : Nat) :
    Except ExecError (Nat × VaultState) := do
  if s₀.paused then throw .paused
  if s₀.locked then throw .reentrancyGuard
  let s := { s₀ with locked := true }
  -- Step 1: Validate user has enough shares
  let userShares := (KMap.lookup s.userShares caller).getD 0
  if userShares < shares ∨ shares = 0 then throw .insufficientBalance
  -- Step 2: Calculate assets using ERC-4626
  let totalAssetsValue ← convert_to_assets s shares
  -- Step 3: Check instant withdrawal pool availability
  let instantPool := s.instantWithdrawalPool
  let (assetsAfterFee, s) ←
    if totalAssetsValue ≤ instantPool then do
      let newPool ← csub instantPool totalAssetsValue
      let s := { s with instantWithdrawalPool := newPool }
      let (feeAmount, s) ← calculate_performance_fee s caller totalAssetsValue
      let a ← csub totalAssetsValue feeAmount
      pure (a, s)
    else do
      -- Need to withdraw from strategies (the strategy call is absent)
      let _amountFromStrategies ← csub totalAssetsValue instantPool
      let s := { s with instantWithdrawalPool := 0 }
      let (feeAmount, s) ← calculate_performance_fee s caller totalAssetsValue
      let a ← csub totalAssetsValue feeAmount
      pure (a, s)
  -- Step 4: Burn user shares
  let newUserShares ← csub userShares shares
  let s :=
    if newUserShares = 0 then
      { s with userShares := KMap.remove s.userShares caller,
               userDeposits := KMap.remove s.userDeposits caller }
    else
      { s with userShares := KMap.set s.userShares caller newUserShares }
  let ts ← csub s.totalShares shares
  .ok (assetsAfterFee, { s with totalShares := ts, locked := false })

/-- `VaultManager::request_withdrawal` (lines 360-405).  Returns the
request id.  Shares are deducted from the caller's spendable balance but
`total_shares` is untouched. -/
def request_withdrawal (s₀ : VaultState) (caller shares now : Nat) :
    Except ExecError (Nat × VaultState) := do
  if s₀.paused then throw .paused
  if s₀.locked then throw .reentrancyGuard
  let s := { s₀ with locked := true }
  let userShares := (KMap.lookup s.userShares caller).getD 0
  if userShares < shares ∨ shares = 0 then throw .insufficientBalance
  let assetsValue ← convert_to_assets s shares
  -- Create withdrawal request
  let requestId := s.nextRequestId
  let unlockTime := now + s.withdrawalTimelock
  let request : WithdrawalRequest :=
    { user := caller, shares := shares, assetsValue := assetsValue,
      requestTime := now, unlockTime := unlockTime, completed := false }
  let s := { s with
               withdrawalRequests := KMap.set s.withdrawalRequests requestId request,
               nextRequestId := requestId + 1 }
  -- Lock user shares (don't burn yet)
  let newUserShares ← csub userShares shares
  let s := { s with userShares := KMap.set s.userShares caller newUserShares }
  .ok (requestId, { s with locked := false })

/-- `VaultManager::complete_withdrawal` (lines 408-473). -/
def complete_withdrawal (s₀ : VaultState) (caller requestId now : Nat) :
    Except ExecError (Nat × VaultState) := do
  if s₀.paused then throw .paused
  if s₀.locked then throw .reentrancyGuard
  let s := { s₀ with locked := true }
  match KMap.lookup s.withdrawalRequests requestId with
  | none => throw .invalidRequest
  | some request =>
      -- Validate request
      if request.user ≠ caller then throw .unauthorized
      if request.completed then throw .invalidRequest
      if now < request.unlockTime then throw .timelockActive
      let s := { s with withdrawalRequests :=
                   KMap.set s.withdrawalRequests requestId { request with completed := true } }
      -- Withdraw from strategies if needed
      let instantPool := s.instantWithdrawalPool
      let s ←
        if instantPool < request.assetsValue then do
          let _amountFromStrategies ← csub request.assetsValue instantPool
          pure { s with instantWithdrawalPool := 0 }
        else do
          let newPool ← csub instantPool request.assetsValue
          pure { s with instantWithdrawalPool := newPool }
      let (feeAmount, s) ← calculate_performance_fee s caller request.assetsValue
      let assetsAfterFee ← csub request.assetsValue feeAmount
      let ts ← csub s.totalShares request.shares
      .ok (assetsAfterFee, { s with totalShares := ts, locked := false })

/-- `VaultManager::instant_withdraw` (lines 479-541). -/
def instant_withdraw (s₀ : VaultState) (caller shares now : Nat) :
    Except ExecError (Nat × VaultState) := do
  if s₀.paused then throw .paused
  if s₀.locked then throw .reentrancyGuard
  let s := { s₀ with locked := true }
  let userShares := (KMap.lookup s.userShares caller).getD 0
  if userShares < shares ∨ shares = 0 then throw .insufficientBalance
  let assetsValue ← convert_to_assets s shares
  let instantPool := s.instantWithdrawalPool
  if instantPool < assetsValue then throw .insufficientLiquidity
  let p ← cmul assetsValue s.instantWithdrawalFeeBps
  let instantFee ← cdiv p 10000
  let (performanceFee, s) ← calculate_performance_fee s caller assetsValue
  let totalFees ← cadd instantFee performanceFee
  let assetsAfterFee ← csub assetsValue totalFees
  let newPool ← csub instantPool assetsValue
  let s := { s with instantWithdrawalPool := newPool }
  let fc ← cadd s.feesCollected totalFees
  let s := { s with feesCollected := fc }
  -- Burn user shares
  let newUserShares ← csub userShares shares
  let s :=
    if newUserShares = 0 then
      { s with userShares := KMap.remove s.userShares caller,
               userDeposits := KMap.remove s.userDeposits caller }
    else
      { s with userShares := KMap.set s.userShares caller newUserShares }
  let ts ← csub s.totalShares shares
  .ok (assetsAfterFee, { s with totalShares := ts, locked := false })

end VaultManager

namespace VaultManager

def initVault (admin treasury t0 : Nat) : VaultState :=
  { paused := false
    locked := false
    roles := [(0, admin)]
    totalAssetsVar := 0
    totalShares := 0
    userShares := []
    userDeposits := []
    withdrawalRequests := []
    nextRequestId := 0
    withdrawalTimelock := 7 * 24 * 60 * 60
    instantWithdrawalPool := 0
    instantPoolTargetBps := 500
    performanceFeeBps := 1000
    managementFeeBps := 200
    instantWithdrawalFeeBps := 50
    feesCollected := 0
    lastFeeCollection := t0
    treasury := treasury
    maxDeposit := 10000000000000
    maxDepositPerDay := 50000000000000
    dailyDeposits := []
    minShares := 1000 }

def vsBoot : VaultState :=
  { initVault 1 2 0 with roles := [(0, 1), (3, 4)] }

/-- A first deposit: 10,000,000,000 motes (10 CSPR) attached by the keeper
account 4, one hour after `init` (so the fee sweep's one-hour limit is
met; with `total_shares = 0` the swept fee is zero). -/
def bootDeposit : Except ExecError (Nat × VaultState) :=
  deposit vsBoot 4 10000000000 3600

/-- The vault state after `bootDeposit`. -/
def afterBootDeposit : VaultState :=
  match bootDeposit with
  | .ok (_, s) => s
  | .error _ => vsBoot

/-- The payout of immediately withdrawing, at the same block time, every
share minted by `bootDeposit`. -/
def bootRoundTrip : Except ExecError Nat :=
  match bootDeposit with
  | .ok (sh, s1) => Except.map Prod.fst (withdraw s1 4 sh 3600)
  | .error e => .error e

end VaultManager

namespace VaultManager

/-- A paused vault in which account 5 holds 5000 shares. -/
def c1sPaused : VaultState :=
  { vsBoot with paused := true, totalShares := 5000, userShares := [(5, 5000)] }

/-- C1 counterexample: in a paused state where the caller holds enough
shares, all three withdrawal entry points DO fail with the paused error,
contrary to the claim that the pause flag does not block them. -/
theorem c1_counterexample :
    c1sPaused.paused = true ∧
    withdraw c1sPaused 5 5000 0 = .error .paused ∧
    request_withdrawal c1sPaused 5 5000 0 = .error .paused ∧
    complete_withdrawal c1sPaused 5 0 0 = .error .paused := by
  decide

/-- C1 (amended): while the pause flag is set, the regular withdraw,
requestWithdrawal and completeWithdrawal entry points all fail with the
Paused error — the pause blocks withdrawals just like deposits (each of
the three starts with `pausable.when_not_paused()`). -/
theorem c1_pause_blocks_withdrawals (s : VaultState)
    (caller shares requestId now : Nat) (h : s.paused = true) :
    withdraw s caller shares now = .error .paused ∧
    request_withdrawal s caller shares now = .error .paused ∧
    complete_withdrawal s caller requestId now = .error .paused := by
  refine ⟨?_, ?_, ?_⟩ <;>
    simp [withdraw, request_withdrawal, complete_withdrawal, h]

/-- C1 witness: the amended theorem applied at a concrete paused state. -/
theorem c1_witness :
    c1sPaused.paused = true ∧
    (withdraw c1sPaused 6 1 5 = .error .paused ∧
     request_withdrawal c1sPaused 6 1 5 = .error .paused ∧
     complete_withdrawal c1sPaused 6 9 5 = .error .paused) :=
  ⟨by decide, c1_pause_blocks_withdrawals c1sPaused 6 1 9 5 (by decide)⟩

end VaultManager

namespace VaultManager

/-- A state in which keeper account 5 has already deposited the full
daily cap (50,000 CSPR) inside the current 24-hour window (last deposit
at t = 89000, window not yet elapsed at t = 90000). -/
def c2state : VaultState :=
  { vsBoot with
      roles := [(0, 1), (3, 5)],
      userDeposits :=
        [(5, { costBasis := 50000000000000, totalDeposited := 50000000000000,
               lastDepositTime := 89000 })],
      dailyDeposits := [(5, 50000000000000)] }

/-- C2: a deposit that pushes the caller's rolling-24h total past
`max_deposit_per_day` SUCCEEDS: `deposit` calls
`check_daily_deposit_limit` as a bare statement and discards the `false`
it returns, so no `RateLimitExceeded` revert happens and the state is
changed.  (The caller is a keeper and an hour has passed since the last
fee collection, so the fee sweep does not mask the outcome.) -/
theorem c2_daily_limit_not_enforced :
    ((KMap.lookup c2state.dailyDeposits 5).getD 0 + 10000000000 >
       c2state.maxDepositPerDay) ∧
    ¬ ((KMap.lookup c2state.userDeposits 5).map
         UserDeposit.lastDepositTime |>.getD 0) + 86400 < 90000 ∧
    (check_daily_deposit_limit c2state 5 10000000000 90000).map Prod.fst
      = .ok false ∧
    Except.map Prod.fst (deposit c2state 5 10000000000 90000)
      = .ok 10000000000 := by
  decide

end VaultManager

namespace VaultManager

/-- C3: the management-fee sweep inside `deposit` CAN abort the deposit.
A fully valid deposit (unpaused, non-reentrant, positive amount within
both caps, shares above the dust floor) fails with `MissingRole` for an
ordinary (non-keeper) caller, because `collect_management_fees` calls
`access_control.only_keeper()`; and even for a keeper it fails with
`RateLimitExceeded` when less than one hour has elapsed since the last
fee collection. -/
theorem c3_fee_sweep_aborts_deposit :
    deposit vsBoot 5 10000000000 90000 = .error .missingRole ∧
    deposit vsBoot 4 10000000000 1000 = .error .rateLimitExceeded := by
  decide

/-- C4 counterexample: after a successful first deposit of 10,000,000,000
(which the pool-replenishment split routes entirely to strategies),
10,000,000,000 is deployed outside the pool, yet `total_assets()` returns
0 — the instant pool alone — not pool + externally-held value as the
claim states. -/
theorem c4_counterexample :
    Except.map Prod.fst bootDeposit = .ok 10000000000 ∧
    deployedValue afterBootDeposit = 10000000000 ∧
    total_assets_spec afterBootDeposit = 10000000000 ∧
    total_assets afterBootDeposit = 0 ∧
    total_assets afterBootDeposit ≠ total_assets_spec afterBootDeposit := by
  decide

/-- C4 (amended): `total_assets()` returns exactly the instant-pool
balance, for every state; the strategy/staking collaborator value is not
added (the body contains no collaborator query), and in particular the
result does not depend on the running `total_assets` counter that tracks
deposited value. -/
theorem c4_total_assets_pool_only (s : VaultState) :
    total_assets s = s.instantWithdrawalPool ∧
    (∀ v : Nat, total_assets { s with totalAssetsVar := v } = total_assets s) :=
  ⟨rfl, fun _ => rfl⟩

/-- C5: the round trip does not return the deposited amount.  Depositing
A = 10,000,000,000 as the first depositor mints A shares, but immediately
withdrawing all A shares pays out 0, not A: `total_assets()` counts only
the instant pool, which stays 0 because the replenishment split routes
the whole first deposit to strategies, so `convert_to_assets` prices the
shares at 0.  (With literally zero elapsed time the deposit itself
already reverts inside the fee sweep — see the C3 theorem — so the trace
uses a keeper caller one hour after init, when the swept fee is zero.) -/
theorem c5_round_trip_pays_zero :
    Except.map Prod.fst bootDeposit = .ok 10000000000 ∧
    bootRoundTrip = .ok 0 ∧
    bootRoundTrip ≠ .ok 10000000000 := by
  decide

end VaultManager

namespace VaultManager

/-- C6: no profit, no fee.  Whenever the caller has a stored
`UserDeposit` record and the withdrawal's assets value does not exceed
its `cost_basis`, `calculate_performance_fee` returns a fee of exactly 0
and leaves the state (in particular `fees_collected`) unchanged.  This
is the fee computation used by all three withdrawal paths. -/
theorem c6_no_profit_no_fee (s : VaultState) (user amount : Nat)
    (d : UserDeposit)
    (hd : KMap.lookup s.userDeposits user = some d)
    (hle : amount ≤ d.costBasis) :
    calculate_performance_fee s user amount = .ok (0, s) := by
  simp [calculate_performance_fee, hd, hle]

/-- A vault state where account 5 has a deposit record with cost basis
100. -/
def c6state : VaultState :=
  { vsBoot with
      userDeposits :=
        [(5, { costBasis := 100, totalDeposited := 100, lastDepositTime := 0 })] }

/-- C6 witness: the no-profit-no-fee theorem at a concrete state. -/
theorem c6_witness :
    KMap.lookup c6state.userDeposits 5 =
      some { costBasis := 100, totalDeposited := 100, lastDepositTime := 0 } ∧
    (40 : Nat) ≤ 100 ∧
    calculate_performance_fee c6state 5 40 = .ok (0, c6state) :=
  ⟨by decide, by decide,
   c6_no_profit_no_fee c6state 5 40
     { costBasis := 100, totalDeposited := 100, lastDepositTime := 0 }
     (by decide) (by decide)⟩

/-- C9: `convert_to_shares` is total in the degenerate state with
outstanding shares but zero total assets: it returns the asset amount
unchanged (1:1) before ever reaching the division, so the division is
never executed with a zero denominator. -/
theorem c9_convert_to_shares_total (s : VaultState) (assets : Nat)
    (hs : s.totalShares ≠ 0) (ha : total_assets s = 0) :
    convert_to_shares s assets = .ok assets := by
  simp [convert_to_shares, hs, ha]

/-- A vault with 7 outstanding shares and an empty instant pool, so
`total_assets()` is 0. -/
def c9state : VaultState :=
  { vsBoot with totalShares := 7 }

/-- C9 witness: the degenerate-state conversion at a concrete state. -/
theorem c9_witness :
    c9state.totalShares ≠ 0 ∧ total_assets c9state = 0 ∧
    convert_to_shares c9state 123456 = .ok 123456 :=
  ⟨by decide, by decide,
   c9_convert_to_shares_total c9state 123456 (by decide) (by decide)⟩

end VaultManager

namespace VaultManager

/-- After `bootDeposit`, account 4 requests a time-locked withdrawal of
4,000,000,000 of its 10,000,000,000 shares. -/
def c10request : Except ExecError (Nat × VaultState) :=
  match bootDeposit with
  | .ok (_, s1) => request_withdrawal s1 4 4000000000 3600
  | .error e => .error e

/-- ... and then regular-withdraws its remaining 6,000,000,000 spendable
shares, driving its spendable balance to zero, which deletes both its
`user_shares` and `user_deposits` entries while request 0 is still
pending. -/
def c10afterWithdraw : Except ExecError (Nat × VaultState) :=
  match c10request with
  | .ok (_, s2) => withdraw s2 4 6000000000 3600
  | .error e => .error e

/-- The vault state with a pending request and no `UserDeposit` record
for its owner. -/
def c10state : VaultState :=
  match c10afterWithdraw with
  | .ok (_, s3) => s3
  | .error _ => vsBoot

/-- C10: if the caller has no stored `UserDeposit` record,
`calculate_performance_fee` treats the whole withdrawal amount as profit:
fee = amount * performanceFeeBps / 10000, added to `fees_collected`
(first conjunct, for every state without a record, under the U512
no-overflow side conditions).  The record-less state is reachable with a
pending time-locked request (second conjunct): after the boot deposit,
account 4 requests withdrawal of part of its shares, regular-withdraws
the rest (which removes its `UserDeposit`), and can still complete
request 0 after the timelock, with the fee computed by the no-record
branch. -/
theorem c10_missing_record_full_fee :
    (∀ (s : VaultState) (user amount : Nat),
        KMap.lookup s.userDeposits user = none →
        amount * s.performanceFeeBps < U512MOD →
        s.feesCollected + amount * s.performanceFeeBps / 10000 < U512MOD →
        calculate_performance_fee s user amount =
          .ok (amount * s.performanceFeeBps / 10000,
            { s with feesCollected :=
                s.feesCollected + amount * s.performanceFeeBps / 10000 })) ∧
    (Except.map Prod.fst c10afterWithdraw = .ok 0 ∧
     KMap.lookup c10state.userDeposits 4 = none ∧
     KMap.lookup c10state.withdrawalRequests 0 =
       some { user := 4, shares := 4000000000, assetsValue := 0,
              requestTime := 3600, unlockTime := 608400, completed := false } ∧
     Except.map Prod.fst (complete_withdrawal c10state 4 0 700000) = .ok 0) := by
  constructor
  · intro s user amount hnone hov hfc
    simp [calculate_performance_fee, hnone, cmul, cdiv, cadd, hov, hfc]
  · decide

/-- A record-less state with 5 motes of fees already collected. -/
def c10wstate : VaultState :=
  { vsBoot with feesCollected := 5 }

/-- C10 witness: the full-fee branch applied at a concrete record-less
state: a 200-mote withdrawal is charged 200 * 1000 / 10000 = 20, and
`fees_collected` grows from 5 to 25. -/
theorem c10_witness :
    KMap.lookup c10wstate.userDeposits 7 = none ∧
    200 * c10wstate.performanceFeeBps < U512MOD ∧
    calculate_performance_fee c10wstate 7 200 =
      .ok (20, { c10wstate with feesCollected := 25 }) :=
  ⟨by decide, by decide,
   c10_missing_record_full_fee.1 c10wstate 7 200 (by decide) (by decide)
     (by decide)⟩

end VaultManager

namespace VaultManager

/-- Inversion of a successful `Except` bind. -/
theorem bindOk {α β : Type} {x : Except ExecError α} {f : α → Except ExecError β}
    {b : β} (h : (x >>= f) = .ok b) : ∃ a, x = .ok a ∧ f a = .ok b := by
  cases x with
  | error e => simp at h
  | ok a => exact ⟨a, rfl, by simpa using h⟩

/-- Inversion of a successful checked subtraction. -/
theorem csub_ok {a b c : Nat} (h : csub a b = .ok c) : b ≤ a ∧ c = a - b := by
  by_cases hb : b ≤ a
  · have h' := h
    simp [csub, hb] at h'
    exact ⟨hb, h'.symm⟩
  · simp [csub, hb] at h

/-- A successful `calculate_performance_fee` only ever changes
`fees_collected`. -/
theorem cpf_shape {s : VaultState} {u a fee : Nat} {s' : VaultState}
    (h : calculate_performance_fee s u a = .ok (fee, s')) :
    s' = { s with feesCollected := s'.feesCollected } := by
  unfold calculate_performance_fee at h
  cases hl : KMap.lookup s.userDeposits u with
  | some data =>
      rw [hl] at h
      by_cases hle : a ≤ data.costBasis
      · simp only [if_pos hle] at h
        simp at h
        obtain ⟨h1, h2⟩ := h
        subst h2
        rfl
      · simp only [if_neg hle] at h
        obtain ⟨profit, _, h⟩ := bindOk h
        obtain ⟨p, _, h⟩ := bindOk h
        obtain ⟨f2, _, h⟩ := bindOk h
        obtain ⟨fc, _, h⟩ := bindOk h
        simp at h
        obtain ⟨h1, h2⟩ := h
        subst h2
        rfl
  | none =>
      rw [hl] at h
      obtain ⟨p, _, h⟩ := bindOk h
      obtain ⟨f2, _, h⟩ := bindOk h
      obtain ⟨fc, _, h⟩ := bindOk h
      simp at h
      obtain ⟨h1, h2⟩ := h
      subst h2
      rfl

/-- Field-wise consequences of `cpf_shape`. -/
theorem cpf_fields {s : VaultState} {u a fee : Nat} {s' : VaultState}
    (h : calculate_performance_fee s u a = .ok (fee, s')) :
    s'.paused = s.paused ∧ s'.locked = s.locked ∧
    s'.withdrawalRequests = s.withdrawalRequests ∧
    s'.totalShares = s.totalShares ∧ s'.userShares = s.userShares ∧
    s'.userDeposits = s.userDeposits ∧
    s'.instantWithdrawalPool = s.instantWithdrawalPool := by
  have hs := cpf_shape h
  exact ⟨by rw [hs], by rw [hs], by rw [hs], by rw [hs], by rw [hs],
         by rw [hs], by rw [hs]⟩

/-- Inversion of a successful `complete_withdrawal`: the guards must have
passed (not paused, not reentered, owner matches, request uncompleted and
mature) and the resulting state has the request marked completed and
`total_shares` decremented by exactly the request's shares. -/
theorem complete_ok_inv {s : VaultState} {c rid now v : Nat} {s' : VaultState}
    {r : WithdrawalRequest}
    (h : complete_withdrawal s c rid now = .ok (v, s'))
    (hr : KMap.lookup s.withdrawalRequests rid = some r) :
    s.paused = false ∧ s.locked = false ∧ r.user = c ∧ r.completed = false ∧
    r.unlockTime ≤ now ∧
    s'.paused = s.paused ∧ s'.locked = false ∧
    s'.withdrawalRequests =
      KMap.set s.withdrawalRequests rid { r with completed := true } ∧
    r.shares ≤ s.totalShares ∧ s'.totalShares = s.totalShares - r.shares := by
  unfold complete_withdrawal at h
  by_cases hp : s.paused
  · simp [hp] at h
  by_cases hlk : s.locked
  · simp [hp, hlk] at h
  have hpf : s.paused = false := by simpa using hp
  have hlf : s.locked = false := by simpa using hlk
  simp only [hp, hlk, hr, Bool.false_eq_true, if_false, pure_eq_ok, ok_bind] at h
  by_cases hu : r.user = c
  · by_cases hcpl : r.completed
    · simp [hu, hcpl] at h
    · by_cases htl : now < r.unlockTime
      · simp [hu, hcpl, htl] at h
      · have hcf : r.completed = false := by simpa using hcpl
        simp only [hu, hcf, ne_eq, not_true_eq_false, if_false,
          Bool.false_eq_true, htl, pure_eq_ok, ok_bind] at h
        by_cases hpool : s.instantWithdrawalPool < r.assetsValue
        · rw [if_pos hpool] at h
          obtain ⟨x1, hx1, h⟩ := bindOk h
          obtain ⟨fs2, hcp, h⟩ := bindOk h
          obtain ⟨af, haf, h⟩ := bindOk h
          obtain ⟨ts, hts, h⟩ := bindOk h
          simp only [Except.ok.injEq, Prod.mk.injEq] at h
          obtain ⟨hv, hs'⟩ := h
          have hf := cpf_fields hcp
          obtain ⟨hle, htseq⟩ := csub_ok hts
          refine ⟨hpf, hlf, hu, hcf, Nat.le_of_not_lt htl, ?_, ?_, ?_, ?_, ?_⟩
          · rw [← hs']; exact hf.1.trans hpf.symm
          · rw [← hs']
          · rw [← hs', hu]; exact hf.2.2.1
          · exact le_trans hle (le_of_eq hf.2.2.2.1)
          · rw [← hs']
            show ts = s.totalShares - r.shares
            rw [htseq, hf.2.2.2.1]
        · rw [if_neg hpool] at h
          obtain ⟨x1, hx1, h⟩ := bindOk h
          obtain ⟨fs2, hcp, h⟩ := bindOk h
          obtain ⟨af, haf, h⟩ := bindOk h
          obtain ⟨ts, hts, h⟩ := bindOk h
          simp only [Except.ok.injEq, Prod.mk.injEq] at h
          obtain ⟨hv, hs'⟩ := h
          have hf := cpf_fields hcp
          obtain ⟨hle, htseq⟩ := csub_ok hts
          refine ⟨hpf, hlf, hu, hcf, Nat.le_of_not_lt htl, ?_, ?_, ?_, ?_, ?_⟩
          · rw [← hs']; exact hf.1.trans hpf.symm
          · rw [← hs']
          · rw [← hs', hu]; exact hf.2.2.1
          · exact le_trans hle (le_of_eq hf.2.2.2.1)
          · rw [← hs']
            show ts = s.totalShares - r.shares
            rw [htseq, hf.2.2.2.1]
  · simp [hu] at h

theorem convert_to_assets_ok (s : VaultState) (shares : Nat)
    (hov : shares * total_assets s < U512MOD) :
    convert_to_assets s shares =
      .ok (if s.totalShares = 0 then 0
           else shares * total_assets s / s.totalShares) := by
  by_cases hts : s.totalShares = 0
  · simp [convert_to_assets, hts]
  · simp [convert_to_assets, hts, cmul, cdiv, hov]

/-- C7: requestWithdrawal immediately removes exactly `shares` from the
caller's spendable balance while leaving `total_shares` unchanged (first
conjunct: under the validity preconditions it succeeds, returns the next
request id, the caller's balance drops by `shares`, and `total_shares`
stays put); `total_shares` is decremented by exactly the request's share
count only when completeWithdrawal succeeds for that request (second
conjunct). -/
theorem c7_request_locks_shares :
    (∀ (s : VaultState) (caller shares now : Nat),
        s.paused = false → s.locked = false → shares ≠ 0 →
        shares ≤ (KMap.lookup s.userShares caller).getD 0 →
        shares * total_assets s < U512MOD →
        Except.map
          (fun p => (p.1, (KMap.lookup p.2.userShares caller).getD 0,
                     p.2.totalShares))
          (request_withdrawal s caller shares now) =
        .ok (s.nextRequestId,
             (KMap.lookup s.userShares caller).getD 0 - shares,
             s.totalShares)) ∧
    (∀ (s : VaultState) (caller requestId now v : Nat) (s' : VaultState)
        (r : WithdrawalRequest),
        complete_withdrawal s caller requestId now = .ok (v, s') →
        KMap.lookup s.withdrawalRequests requestId = some r →
        s'.totalShares + r.shares = s.totalShares) := by
  constructor
  · intro s caller shares now hp hl h0 hbal hov
    have hcond : ¬ ((KMap.lookup s.userShares caller).getD 0 < shares
        ∨ shares = 0) := by omega
    have hconv := convert_to_assets_ok { s with locked := true } shares hov
    rw [hp] at hconv
    unfold request_withdrawal
    simp [hp, hl, hcond, hconv, csub, hbal, Except.map,
      KMap.lookup_set_self]
  · intro s caller requestId now v s' r h hr
    obtain ⟨_, _, _, _, _, _, _, _, hle, hts⟩ := complete_ok_inv h hr
    omega

/-- A vault where account 5 holds 1,000,000 spendable shares. -/
def c7state : VaultState :=
  { vsBoot with totalShares := 1000000, userShares := [(5, 1000000)] }

/-- A vault holding a mature, uncompleted withdrawal request (id 0) of
500 shares for account 7, with 1000 total shares and a 50-mote pool. -/
def c7rqstate : VaultState :=
  { vsBoot with
      totalShares := 1000,
      instantWithdrawalPool := 50,
      withdrawalRequests :=
        [(0, { user := 7, shares := 500, assetsValue := 30, requestTime := 0,
               unlockTime := 100, completed := false })] }

/-- The state after completing request 0 of `c7rqstate`. -/
def c7rqafter : VaultState :=
  match complete_withdrawal c7rqstate 7 0 200 with
  | .ok (_, x) => x
  | .error _ => c7rqstate

/-- C7 witness: both conjuncts applied at concrete states. -/
theorem c7_witness :
    c7state.paused = false ∧
    (400000 : Nat) ≤ (KMap.lookup c7state.userShares 5).getD 0 ∧
    Except.map
        (fun p => (p.1, (KMap.lookup p.2.userShares 5).getD 0,
                   p.2.totalShares))
        (request_withdrawal c7state 5 400000 123)
      = .ok (0, 600000, 1000000) ∧
    complete_withdrawal c7rqstate 7 0 200 = .ok (27, c7rqafter) ∧
    c7rqafter.totalShares + 500 = 1000 :=
  ⟨by decide, by decide,
   c7_request_locks_shares.1 c7state 5 400000 123 (by decide) (by decide)
     (by decide) (by decide) (by decide),
   by decide,
   c7_request_locks_shares.2 c7rqstate 7 0 200 27 c7rqafter
     { user := 7, shares := 500, assetsValue := 30, requestTime := 0,
       unlockTime := 100, completed := false }
     (by decide) (by decide)⟩

/-- C8: completing the same withdrawal-request id twice fails the second
time.  If `complete_withdrawal` succeeded once, the stored request is
marked completed, so a second call with the same id fails with the
`InvalidRequest` error; the error aborts (reverts) the call, so the whole
vault state is left unchanged. -/
theorem c8_completion_idempotent (s : VaultState)
    (caller requestId now v : Nat) (s' : VaultState) (now2 : Nat)
    (h : complete_withdrawal s caller requestId now = .ok (v, s')) :
    complete_withdrawal s' caller requestId now2 = .error .invalidRequest := by
  cases hl : KMap.lookup s.withdrawalRequests requestId with
  | none =>
      exfalso
      unfold complete_withdrawal at h
      by_cases hp : s.paused
      · simp [hp] at h
      by_cases hlk : s.locked
      · simp [hp, hlk] at h
      simp [hp, hlk, hl] at h
  | some r =>
      obtain ⟨hpf, hlf, hu, hcf, htl, hp', hlk', hwr, hle, hts⟩ :=
        complete_ok_inv h hl
      have hlook : KMap.lookup s'.withdrawalRequests requestId
          = some { r with completed := true } := by
        rw [hwr]; exact KMap.lookup_set_self _ _ _
      have hp2 : s'.paused = false := hp'.trans hpf
      unfold complete_withdrawal
      simp [hp2, hlk', hlook, hu]

/-- A vault holding a mature, uncompleted withdrawal request (id 0) of
500 shares for account 7 (same shape as `c7rqstate`, owned by C8). -/
def c8state : VaultState :=
  { vsBoot with
      totalShares := 1000,
      instantWithdrawalPool := 50,
      withdrawalRequests :=
        [(0, { user := 7, shares := 500, assetsValue := 30, requestTime := 0,
               unlockTime := 100, completed := false })] }

/-- The state after the first successful completion of request 0. -/
def c8after : VaultState :=
  match complete_withdrawal c8state 7 0 200 with
  | .ok (_, x) => x
  | .error _ => c8state

/-- C8 witness: a concrete first completion succeeds (paying 30 minus
the 3-mote performance fee), and the second completion of the same id
fails with InvalidRequest. -/
theorem c8_witness :
    complete_withdrawal c8state 7 0 200 = .ok (27, c8after) ∧
    complete_withdrawal c8after 7 0 500 = .error .invalidRequest :=
  ⟨by decide,
   c8_completion_idempotent c8state 7 0 200 27 c8after 500 (by decide)⟩

end VaultManager
